import Mathlib

/-!
Verification of the multi-tier TTL cache in
`a-stock-analysis/scripts/data_manager.py`.

The embedding models time as natural-number seconds (a `datetime` value is
its timestamp; `datetime.now()` becomes an explicit `now` argument), Python
dictionaries as insertion-ordered association lists over `String` keys, and
the on-disk state (index document and blob files) as explicit fields of the
manager state.  Fallible operations return `Except String` where the Python
code can raise, and degrade exactly where the Python code catches.
-/

/-- Association-list lookup, first match wins (Python dict lookup). -/
def lookupA {β : Type} : List (String × β) → String → Option β
  | [], _ => none
  | p :: rest, k => if p.1 = k then some p.2 else lookupA rest k

/-- Association-list store (Python dict item assignment): overwrite the first
binding in place, otherwise append at the end, preserving insertion order. -/
def insertA {β : Type} : List (String × β) → String → β → List (String × β)
  | [], k, v => [(k, v)]
  | p :: rest, k, v => if p.1 = k then (k, v) :: rest else p :: insertA rest k v

/-- Association-list removal of the first binding (Python `del d[k]`). -/
def eraseA {β : Type} : List (String × β) → String → List (String × β)
  | [], _ => []
  | p :: rest, k => if p.1 = k then rest else p :: eraseA rest k

/-- A well-formed dictionary binds each key at most once. -/
@[reducible] def nodupKeys {β : Type} (l : List (String × β)) : Prop :=
  (l.map Prod.fst).Nodup

/-- `CacheEntry` from `data_manager.py` (lines 35-54): payload, creation and
expiry timestamps, provenance tag, metadata, access bookkeeping. -/
structure CacheEntry (α : Type) where
  data : α
  created_at : Nat
  expire_time : Nat
  source : String
  metadata : List (String × String)
  access_count : Nat
  last_accessed : Nat
deriving DecidableEq

/-- `CacheEntry.is_expired`: `datetime.now() > self.expire_time`. -/
def CacheEntry.expired {α : Type} (now : Nat) (e : CacheEntry α) : Bool :=
  now > e.expire_time

/-- `CacheEntry.touch`: bump the access counter and the last-access time. -/
def CacheEntry.touch {α : Type} (now : Nat) (e : CacheEntry α) : CacheEntry α :=
  { e with access_count := e.access_count + 1, last_accessed := now }

/-- One row of the persisted disk index (`disk_cache_index[key]`).
`expire_time = none` models a malformed row: the `expire_time` field is
missing or does not parse, so `datetime.fromisoformat` raises on it. -/
structure DiskInfo where
  expire_time : Option Nat
  data_type : String
  identifier : String
  metadata : List (String × String)
deriving DecidableEq

/-- A blob file `{key}.pkl` on disk: either `pickle.load` yields a payload,
or the file content makes `pickle.load` raise.  A missing file is modelled
by the key being absent from the blob map. -/
inductive Blob (α : Type) where
  | ok (data : α)
  | corrupt
deriving DecidableEq

/-- One row of `DEFAULT_CACHE_CONFIG`: a duration and its unit. -/
structure TTLConfig where
  ttl : Nat
  unit : String
deriving DecidableEq

/-- `DataManager.DEFAULT_CACHE_CONFIG` (lines 68-81). -/
def defaultCacheConfig : List (String × TTLConfig) :=
  [("realtime_quote", ⟨60, "seconds"⟩),
   ("kline_daily", ⟨300, "seconds"⟩),
   ("kline_weekly", ⟨1800, "seconds"⟩),
   ("kline_monthly", ⟨3600, "seconds"⟩),
   ("financial_statements", ⟨86400, "seconds"⟩),
   ("valuation_metrics", ⟨3600, "seconds"⟩),
   ("institutional_holdings", ⟨3600, "seconds"⟩),
   ("fund_flow", ⟨300, "seconds"⟩),
   ("north_south_bound", ⟨300, "seconds"⟩),
   ("analyst_ratings", ⟨3600, "seconds"⟩),
   ("sector_performance", ⟨600, "seconds"⟩),
   ("search_data", ⟨1800, "seconds"⟩)]

/-- The full mutable state of a `DataManager`: the in-process memory tier,
the disk index (held in memory, persisted by `_save_disk_cache_index`), the
blob files on disk, the TTL table (a class attribute, mutated by the
`cached` decorator for scoped overrides), and a counter of how many times
the index document has been rewritten. -/
structure DM (α : Type) where
  memory_cache : List (String × CacheEntry α)
  disk_cache_index : List (String × DiskInfo)
  blobs : List (String × Blob α)
  config : List (String × TTLConfig)
  index_saves : Nat
deriving DecidableEq

/-- Disk environment for `set`: when `writeFails` is true, opening the blob
file for writing raises (disk unavailable), which `set` catches. -/
structure DiskEnv where
  writeFails : Bool
deriving DecidableEq

/-- Byte-wise (code-point) comparison of char lists, the order used by
`json.dumps(..., sort_keys=True)` on string keys. -/
def charListLe : List Char → List Char → Bool
  | [], _ => true
  | _ :: _, [] => false
  | a :: as, b :: bs =>
    if a.toNat < b.toNat then true
    else if b.toNat < a.toNat then false
    else charListLe as bs

/-- String order used for parameter-key sorting. -/
def strLe (a b : String) : Bool :=
  charListLe a.data b.data

/-- Sort the parameter pairs by key (`sort_keys=True`). -/
def sortPairs (params : List (String × String)) : List (String × String) :=
  params.insertionSort (fun a b => strLe a.1 b.1 = true)

/-- `json.dumps(params, sort_keys=True, separators=(",", ":"))` for a
string-valued parameter dict. -/
def jsonDumpsSorted (params : List (String × String)) : String :=
  "\x7b" ++
    String.intercalate ","
      ((sortPairs params).map (fun p => "\x22" ++ p.1 ++ "\x22:\x22" ++ p.2 ++ "\x22")) ++
  "\x7d"

/-- Stand-in for the MD5 hex digest used at line 147 only to shorten the raw
key.  Every claim depends only on the digest being a deterministic function
of the raw key string; no injectivity is assumed anywhere. -/
def md5Hex (s : String) : String :=
  (Nat.toDigits 16
    (s.data.foldl (fun h c => (h * 131 + c.toNat) % 18446744073709551616) 5381)).asString

/-- `DataManager._get_cache_key` (lines 127-147): join category, identifier
and (when the parameter dict is non-empty) the sorted JSON serialization of
the parameters with `|`, then hash. -/
def getCacheKey (dataType identifier : String) (params : List (String × String)) : String :=
  let keyParts :=
    [dataType, identifier] ++ (if params.isEmpty then [] else [jsonDumpsSorted params])
  md5Hex (String.intercalate "|" keyParts)

/-- `DataManager._get_cache_ttl` (lines 149-172). -/
def getCacheTtl (config : List (String × TTLConfig)) (dataType : String) : Nat :=
  let c := (lookupA config dataType).getD ⟨300, "seconds"⟩
  if c.unit = "seconds" then c.ttl
  else if c.unit = "minutes" then c.ttl * 60
  else if c.unit = "hours" then c.ttl * 3600
  else if c.unit = "days" then c.ttl * 86400
  else 300

instance {ε β : Type} [DecidableEq ε] [DecidableEq β] : DecidableEq (Except ε β) := fun a b =>
  match a, b with
  | Except.ok x, Except.ok y =>
    if h : x = y then isTrue (by rw [h]) else isFalse (by intro hc; cases hc; exact h rfl)
  | Except.error x, Except.error y =>
    if h : x = y then isTrue (by rw [h]) else isFalse (by intro hc; cases hc; exact h rfl)
  | Except.ok _, Except.error _ => isFalse (by intro hc; cases hc)
  | Except.error _, Except.ok _ => isFalse (by intro hc; cases hc)

/-- Result of a `get` call: the outcome (`Except.error` models an uncaught
Python exception reaching the caller), the state after the call, and whether
execution reached the disk-index branch or the blob-file read. -/
structure GetResult (α : Type) where
  outcome : Except String (Option α)
  state : DM α
  diskIndexRead : Bool
  blobRead : Bool
deriving DecidableEq

/-- Disk phase of `DataManager.get` (lines 206-235): runs after a memory
miss.  A malformed index row makes `datetime.fromisoformat` raise, uncaught.
An unexpired row with an unreadable or missing blob is caught (lines
228-229) and degrades to a miss, leaving the index untouched.  An expired
row is removed from the index and the index document rewritten; the blob
file is not touched. -/
def DataManager.getDisk {α : Type} (now : Nat) (st : DM α) (cacheKey : String) : GetResult α :=
  match lookupA st.disk_cache_index cacheKey with
  | none => ⟨Except.ok none, st, true, false⟩
  | some info =>
    match info.expire_time with
    | none => ⟨Except.error "fromisoformat", st, true, false⟩
    | some exp =>
      if now < exp then
        match lookupA st.blobs cacheKey with
        | some (Blob.ok data) =>
          let entry : CacheEntry α := ⟨data, now, exp, "disk", info.metadata, 0, now⟩
          ⟨Except.ok (some data),
           { st with memory_cache := insertA st.memory_cache cacheKey entry }, true, true⟩
        | some Blob.corrupt => ⟨Except.ok none, st, true, true⟩
        | none => ⟨Except.ok none, st, true, true⟩
      else
        ⟨Except.ok none,
         { st with disk_cache_index := eraseA st.disk_cache_index cacheKey,
                   index_saves := st.index_saves + 1 }, true, false⟩

/-- `DataManager.get` (lines 174-235): `force_refresh` short-circuits to a
miss before the key is even derived; otherwise the memory tier is consulted
first (hit: touch and return; expired: evict and fall through), then the
disk tier. -/
def DataManager.get {α : Type} (now : Nat) (st : DM α) (dataType identifier : String)
    (params : List (String × String)) (forceRefresh : Bool) : GetResult α :=
  if forceRefresh then ⟨Except.ok none, st, false, false⟩
  else
    let cacheKey := getCacheKey dataType identifier params
    match lookupA st.memory_cache cacheKey with
    | some entry =>
      if entry.expired now then
        DataManager.getDisk now
          { st with memory_cache := eraseA st.memory_cache cacheKey } cacheKey
      else
        ⟨Except.ok (some entry.data),
         { st with memory_cache := insertA st.memory_cache cacheKey (entry.touch now) },
         false, false⟩
    | none => DataManager.getDisk now st cacheKey

/-- `DataManager._should_persist_to_disk` (lines 290-304): allowlisted
categories, or serialized size above 10000.  `dataSize` stands for
`len(str(data))`. -/
def shouldPersistToDisk (dataType : String) (dataSize : Nat) : Bool :=
  (dataType = "financial_statements" || dataType = "kline_daily" ||
   dataType = "kline_weekly") || dataSize > 10000

/-- `DataManager.set` (lines 237-288): derive key and expiry, always store
into the memory tier, then conditionally persist.  The whole body is inside
`try`, so a disk write failure is caught and reported as `false` — but the
memory tier has already been updated by then.  `strLen` models
`len(str(data))`. -/
def DataManager.set {α : Type} (now : Nat) (env : DiskEnv) (strLen : α → Nat) (st : DM α)
    (dataType identifier : String) (data : α) (params : List (String × String))
    (metadata : List (String × String)) : Bool × DM α :=
  let cacheKey := getCacheKey dataType identifier params
  let ttl := getCacheTtl st.config dataType
  let expireTime := now + ttl
  let entry : CacheEntry α := ⟨data, now, expireTime, "api", metadata, 0, now⟩
  let st1 := { st with memory_cache := insertA st.memory_cache cacheKey entry }
  if shouldPersistToDisk dataType (strLen data) then
    if env.writeFails then
      (false, st1)
    else
      (true, { st1 with
        blobs := insertA st1.blobs cacheKey (Blob.ok data),
        disk_cache_index :=
          insertA st1.disk_cache_index cacheKey ⟨some expireTime, dataType, identifier, metadata⟩,
        index_saves := st1.index_saves + 1 })
  else
    (true, st1)

/-- Expiry test for one disk index row in the sweeper:
`datetime.now() > datetime.fromisoformat(v["expire_time"])`, which raises
on a malformed row. -/
def diskExpired (now : Nat) (info : DiskInfo) : Except String Bool :=
  match info.expire_time with
  | none => Except.error "fromisoformat"
  | some t => Except.ok (now > t)

/-- The keys of the expired disk rows, in index order, as collected by the
list comprehension at lines 402-403; the first malformed row aborts the
whole comprehension. -/
def expiredDiskKeys (now : Nat) : List (String × DiskInfo) → Except String (List String)
  | [] => Except.ok []
  | p :: rest =>
    match diskExpired now p.2 with
    | Except.error e => Except.error e
    | Except.ok b =>
      match expiredDiskKeys now rest with
      | Except.error e => Except.error e
      | Except.ok ks => Except.ok (if b then p.1 :: ks else ks)

/-- `DataManager._cleanup_expired_cache` (lines 393-415): one sweep pass.
Evict every expired memory entry; collect the expired disk rows, delete
each of their blob files and index rows, and rewrite the index document
only when at least one disk row was removed.  Returns the new state and the
count of removed entries.  A malformed disk row makes the pass raise (the
error is caught by the cleanup thread loop, outside this function). -/
def cleanupExpiredCache {α : Type} (now : Nat) (st : DM α) : Except String (DM α × Nat) :=
  let expiredMemKeys := (st.memory_cache.filter (fun p => p.2.expired now)).map Prod.fst
  let mem := st.memory_cache.filter (fun p => !(p.2.expired now))
  match expiredDiskKeys now st.disk_cache_index with
  | Except.error e => Except.error e
  | Except.ok dks =>
    let blobs := st.blobs.filter (fun p => !(dks.contains p.1))
    let disk := st.disk_cache_index.filter (fun p => !(dks.contains p.1))
    let saves := if dks.isEmpty then st.index_saves else st.index_saves + 1
    Except.ok
      ({ st with memory_cache := mem, disk_cache_index := disk,
                 blobs := blobs, index_saves := saves },
       expiredMemKeys.length + dks.length)

/-- Python truthiness of the resolved identifier (`if not identifier`):
absent or the empty string. -/
def falsy : Option String → Bool
  | none => true
  | some s => s = ""

/-- Identifier resolution in the `cached` wrapper (lines 461-470): keyword
argument first; when that is falsy and positional arguments exist, look the
parameter name up in the declared signature and take the positional
argument at its index when there is one. -/
def resolveIdentifier (sigParams : List String) (identifierParam : String)
    (args : List String) (kwargs : List (String × String)) : Option String :=
  let id0 := lookupA kwargs identifierParam
  if falsy id0 && !args.isEmpty then
    if sigParams.contains identifierParam then
      match args[sigParams.indexOf identifierParam]? with
      | some v => some v
      | none => id0
    else id0
  else id0

/-- `inspect.signature(func).bind_partial(*args, **kwargs)` followed by
`apply_defaults()` (lines 478-479): for each declared parameter in order,
the positional argument at its index, else the keyword argument, else the
declared default, else unbound. -/
def boundArguments (sigParams : List String) (defaults : List (String × String))
    (args : List String) (kwargs : List (String × String)) : List (String × String) :=
  sigParams.enum.filterMap fun ip =>
    match args[ip.1]? with
    | some v => some (ip.2, v)
    | none =>
      match lookupA kwargs ip.2 with
      | some v => some (ip.2, v)
      | none =>
        match lookupA defaults ip.2 with
        | some v => some (ip.2, v)
        | none => none

/-- The parameter dict built by the wrapper at lines 480-483: the bound
arguments other than the identifier, plus `__func__` mapped to the name of
the wrapped operation. -/
def wrapperOtherParams (sigParams : List String) (defaults : List (String × String))
    (args : List String) (kwargs : List (String × String))
    (identifierParam funcName : String) : List (String × String) :=
  insertA
    ((boundArguments sigParams defaults args kwargs).filter
      (fun p => p.1 != identifierParam))
    "__func__" funcName

/-- One call through the `cached` decorator (lines 442-514).  `fn` is the
wrapped fetch operation (`none` models a `None` result), `sigParams` and
`defaults` its declared signature, `funcName` its `__name__`.  Returns the
call outcome, the state after the call, and how many times `fn` ran.
A falsy identifier bypasses the cache entirely.  Otherwise the wrapper
consults `get` with `wrapperOtherParams`, and on a miss runs `fn`; a
non-`None` result is stored, with a scoped TTL-table override when
`ttlOverride` is set: the table row is replaced by the override for the
`set`, then its `ttl` field is written back — but only when the category
already had a row with a `ttl` before the call. -/
def cachedCall {α : Type} (now : Nat) (env : DiskEnv) (strLen : α → Nat)
    (dataType : String) (ttlOverride : Option Nat) (identifierParam funcName : String)
    (sigParams : List String) (defaults : List (String × String))
    (fn : List String → List (String × String) → Option α)
    (args : List String) (kwargs : List (String × String))
    (st : DM α) : Except String (Option α) × DM α × Nat :=
  let identifier := resolveIdentifier sigParams identifierParam args kwargs
  if falsy identifier then
    (Except.ok (fn args kwargs), st, 1)
  else
    let ident := identifier.getD ""
    let otherParams := wrapperOtherParams sigParams defaults args kwargs identifierParam funcName
    let r1 := DataManager.get now st dataType ident otherParams false
    match r1.outcome with
    | Except.error e => (Except.error e, r1.state, 0)
    | Except.ok (some cachedData) => (Except.ok (some cachedData), r1.state, 0)
    | Except.ok none =>
      match fn args kwargs with
      | none => (Except.ok none, r1.state, 1)
      | some data =>
        match ttlOverride with
        | none =>
          let res := DataManager.set now env strLen r1.state dataType ident data otherParams []
          (Except.ok (some data), res.2, 1)
        | some t =>
          let originalTtl := (lookupA r1.state.config dataType).map TTLConfig.ttl
          let stO := { r1.state with config := insertA r1.state.config dataType ⟨t, "seconds"⟩ }
          let res := DataManager.set now env strLen stO dataType ident data otherParams []
          let st2 := res.2
          let st3 :=
            match originalTtl with
            | some ot =>
              match lookupA st2.config dataType with
              | some c => { st2 with config := insertA st2.config dataType ⟨ot, c.unit⟩ }
              | none => st2
            | none => st2
          (Except.ok (some data), st3, 1)

theorem lookupA_insertA {β : Type} (l : List (String × β)) (k k' : String) (v : β) :
    lookupA (insertA l k v) k' = if k' = k then some v else lookupA l k' := by
  induction l with
  | nil =>
    simp only [insertA, lookupA]
    by_cases h : k' = k
    · rw [if_pos h.symm, if_pos h]
    · rw [if_neg (fun hc : k = k' => h hc.symm), if_neg h]
  | cons p rest ih =>
    simp only [insertA]
    by_cases hp : p.1 = k
    · rw [if_pos hp]
      simp only [lookupA]
      by_cases h : k' = k
      · rw [if_pos h.symm, if_pos h]
      · rw [if_neg (fun hc : k = k' => h hc.symm), if_neg h,
            if_neg (fun hc : p.1 = k' => h (hp.symm.trans hc).symm)]
    · rw [if_neg hp]
      simp only [lookupA, ih]
      by_cases hpk : p.1 = k'
      · rw [if_pos hpk, if_neg (fun hc : k' = k => hp (hpk.trans hc)), if_pos hpk]
      · rw [if_neg hpk]
        by_cases h : k' = k
        · rw [if_pos h, if_pos h]
        · rw [if_neg h, if_neg h, if_neg hpk]

theorem lookupA_insertA_self {β : Type} (l : List (String × β)) (k : String) (v : β) :
    lookupA (insertA l k v) k = some v := by
  rw [lookupA_insertA, if_pos rfl]

theorem eraseA_insertA {β : Type} (l : List (String × β)) (k : String) (v : β) :
    eraseA (insertA l k v) k = eraseA l k := by
  induction l with
  | nil => simp [insertA, eraseA]
  | cons p rest ih =>
    simp only [insertA]
    by_cases hp : p.1 = k
    · rw [if_pos hp]
      simp [eraseA, hp]
    · rw [if_neg hp]
      simp only [eraseA, if_neg hp, ih]

theorem eraseA_of_lookupA_none {β : Type} (l : List (String × β)) (k : String)
    (h : lookupA l k = none) : eraseA l k = l := by
  induction l with
  | nil => rfl
  | cons p rest ih =>
    simp only [lookupA] at h
    by_cases hp : p.1 = k
    · rw [if_pos hp] at h; cases h
    · rw [if_neg hp] at h
      simp only [eraseA, if_neg hp, ih h]

theorem lookupA_eq_none {β : Type} (l : List (String × β)) (k : String)
    (h : ¬ k ∈ l.map Prod.fst) : lookupA l k = none := by
  induction l with
  | nil => rfl
  | cons p rest ih =>
    simp only [List.map_cons, List.mem_cons, not_or] at h
    simp only [lookupA]
    rw [if_neg (fun hc => h.1 hc.symm)]
    exact ih h.2

theorem lookupA_eraseA_self {β : Type} (l : List (String × β)) (k : String)
    (h : nodupKeys l) : lookupA (eraseA l k) k = none := by
  induction l with
  | nil => rfl
  | cons p rest ih =>
    simp only [nodupKeys, List.map_cons, List.nodup_cons] at h
    simp only [eraseA]
    by_cases hp : p.1 = k
    · rw [if_pos hp]
      exact lookupA_eq_none rest k (hp ▸ h.1)
    · rw [if_neg hp]
      simp only [lookupA]
      rw [if_neg hp]
      exact ih h.2

theorem lookupA_filter_not_contains {β : Type} (l : List (String × β)) (ks : List String)
    (k : String) (h : ks.contains k = true) :
    lookupA (l.filter (fun p => !(ks.contains p.1))) k = none := by
  induction l with
  | nil => rfl
  | cons p rest ih =>
    rw [List.filter_cons]
    by_cases hp : (!(ks.contains p.1)) = true
    · rw [if_pos hp]
      simp only [lookupA]
      have hne : ¬ p.1 = k := by
        intro hc
        rw [hc, h] at hp
        cases hp
      rw [if_neg hne]
      exact ih
    · rw [if_neg hp]
      exact ih

theorem charListLe_total : ∀ as bs, charListLe as bs = true ∨ charListLe bs as = true
  | [], _ => Or.inl rfl
  | _ :: _, [] => Or.inr rfl
  | a :: as, b :: bs => by
    simp only [charListLe]
    by_cases h1 : a.toNat < b.toNat
    · left; rw [if_pos h1]
    · by_cases h2 : b.toNat < a.toNat
      · right; rw [if_pos h2]
      · rw [if_neg h1, if_neg h2, if_neg h2, if_neg h1]
        exact charListLe_total as bs

theorem charListLe_trans : ∀ as bs cs, charListLe as bs = true → charListLe bs cs = true →
    charListLe as cs = true
  | [], _, _ => fun _ _ => rfl
  | _ :: _, [], _ => fun h1 _ => by cases h1
  | _ :: _, _ :: _, [] => fun _ h2 => by cases h2
  | a :: as, b :: bs, c :: cs => fun h1 h2 => by
    simp only [charListLe] at h1 h2 ⊢
    by_cases hab : a.toNat < b.toNat
    · by_cases hbc : b.toNat < c.toNat
      · rw [if_pos (Nat.lt_trans hab hbc)]
      · rw [if_neg hbc] at h2
        by_cases hcb : c.toNat < b.toNat
        · rw [if_pos hcb] at h2; cases h2
        · have hac : a.toNat < c.toNat := by omega
          rw [if_pos hac]
    · rw [if_neg hab] at h1
      by_cases hba : b.toNat < a.toNat
      · rw [if_pos hba] at h1; cases h1
      · rw [if_neg hba] at h1
        by_cases hbc : b.toNat < c.toNat
        · have hac : a.toNat < c.toNat := by omega
          rw [if_pos hac]
        · rw [if_neg hbc] at h2
          by_cases hcb : c.toNat < b.toNat
          · rw [if_pos hcb] at h2; cases h2
          · rw [if_neg hcb] at h2
            have hac : ¬ a.toNat < c.toNat := by omega
            have hca : ¬ c.toNat < a.toNat := by omega
            rw [if_neg hac, if_neg hca]
            exact charListLe_trans as bs cs h1 h2

theorem charListLe_antisymm : ∀ as bs, charListLe as bs = true → charListLe bs as = true →
    as = bs
  | [], [] => fun _ _ => rfl
  | [], _ :: _ => fun _ h2 => by cases h2
  | _ :: _, [] => fun h1 _ => by cases h1
  | a :: as, b :: bs => fun h1 h2 => by
    simp only [charListLe] at h1 h2
    by_cases hab : a.toNat < b.toNat
    · rw [if_neg (Nat.lt_asymm hab), if_pos hab] at h2
      cases h2
    · by_cases hba : b.toNat < a.toNat
      · rw [if_neg (Nat.lt_asymm hba), if_pos hba] at h1
        cases h1
      · rw [if_neg hab, if_neg hba] at h1
        rw [if_neg hba, if_neg hab] at h2
        have heq : a.toNat = b.toNat := by omega
        rw [Char.eq_of_val_eq (UInt32.ext heq), charListLe_antisymm as bs h1 h2]

theorem strLe_antisymm (a b : String) (h1 : strLe a b = true) (h2 : strLe b a = true) : a = b := by
  have h := charListLe_antisymm a.data b.data h1 h2
  cases a; cases b; simp_all

theorem sortPairs_eq_of_perm (P Q : List (String × String)) (hp : P.Perm Q)
    (hnd : nodupKeys P) : sortPairs P = sortPairs Q := by
  haveI : IsTotal (String × String) (fun a b => strLe a.1 b.1 = true) :=
    ⟨fun a b => charListLe_total a.1.data b.1.data⟩
  haveI : IsTrans (String × String) (fun a b => strLe a.1 b.1 = true) :=
    ⟨fun a b c h1 h2 => charListLe_trans a.1.data b.1.data c.1.data h1 h2⟩
  haveI : IsAntisymm (String × String) (fun a b => (strLe a.1 b.1 = true) ∧ a.1 ≠ b.1) :=
    ⟨fun a b h1 h2 => absurd (strLe_antisymm a.1 b.1 h1.1 h2.1) h1.2⟩
  have hperm : (sortPairs P).Perm (sortPairs Q) :=
    (List.perm_insertionSort _ P).trans (hp.trans (List.perm_insertionSort _ Q).symm)
  have hs1 : (sortPairs P).Sorted (fun a b => strLe a.1 b.1 = true) :=
    List.sorted_insertionSort _ P
  have hs2 : (sortPairs Q).Sorted (fun a b => strLe a.1 b.1 = true) :=
    List.sorted_insertionSort _ Q
  have hnd1 : nodupKeys (sortPairs P) :=
    (((List.perm_insertionSort _ P).map Prod.fst).symm).nodup hnd
  have hnd2 : nodupKeys (sortPairs Q) := ((hperm.map Prod.fst)).nodup hnd1
  have hstrict1 : (sortPairs P).Pairwise (fun a b => (strLe a.1 b.1 = true) ∧ a.1 ≠ b.1) :=
    hs1.and (List.pairwise_map.mp hnd1)
  have hstrict2 : (sortPairs Q).Pairwise (fun a b => (strLe a.1 b.1 = true) ∧ a.1 ≠ b.1) :=
    hs2.and (List.pairwise_map.mp hnd2)
  exact List.eq_of_perm_of_sorted hperm hstrict1 hstrict2

theorem getDisk_config {α : Type} (now : Nat) (st : DM α) (cacheKey : String) :
    (DataManager.getDisk now st cacheKey).state.config = st.config := by
  unfold DataManager.getDisk
  split
  · rfl
  · split
    · rfl
    · split
      · split <;> rfl
      · rfl

theorem get_config {α : Type} (now : Nat) (st : DM α) (dataType identifier : String)
    (params : List (String × String)) (forceRefresh : Bool) :
    (DataManager.get now st dataType identifier params forceRefresh).state.config = st.config := by
  unfold DataManager.get
  dsimp only
  split
  · rfl
  · split
    · split
      · rw [getDisk_config]
      · rfl
    · rw [getDisk_config]

theorem set_config {α : Type} (now : Nat) (env : DiskEnv) (strLen : α → Nat) (st : DM α)
    (dataType identifier : String) (data : α) (params metadata : List (String × String)) :
    (DataManager.set now env strLen st dataType identifier data params metadata).2.config
      = st.config := by
  unfold DataManager.set
  split
  · split <;> rfl
  · rfl

/-- C10: a `get` with `force_refresh=True` returns `None` and leaves the
whole cache state unchanged — no memory entry is added, evicted or touched,
and neither the disk index nor any blob file is read or modified (the call
returns before the cache key is even derived). -/
theorem get_force_refresh_pure_miss {α : Type} (now : Nat) (st : DM α)
    (dataType identifier : String) (params : List (String × String)) :
    DataManager.get now st dataType identifier params true
      = ⟨Except.ok none, st, false, false⟩ := rfl

/-- C9: when the identifier cannot be resolved from the bound arguments of
the call, the wrapper invokes the underlying function exactly once, returns
its result, neither consults nor mutates the cache, and raises no error. -/
theorem cached_bypass_unresolved {α : Type} (now : Nat) (env : DiskEnv) (strLen : α → Nat)
    (dataType : String) (ttlOverride : Option Nat) (identifierParam funcName : String)
    (sigParams : List String) (defaults : List (String × String))
    (fn : List String → List (String × String) → Option α)
    (args : List String) (kwargs : List (String × String)) (st : DM α)
    (h : resolveIdentifier sigParams identifierParam args kwargs = none) :
    cachedCall now env strLen dataType ttlOverride identifierParam funcName sigParams
        defaults fn args kwargs st = (Except.ok (fn args kwargs), st, 1) := by
  unfold cachedCall
  rw [h]
  rfl

/-- Witness for C9: a concrete call in which the identifier parameter
`stock_code` is neither a keyword argument nor a declared parameter. -/
theorem cached_bypass_unresolved_witness :
    resolveIdentifier ["other"] "stock_code" [] [] = none ∧
    cachedCall 5 ⟨false⟩ (fun _ => 0) "kline_daily" none "stock_code" "f" ["other"] []
        (fun _ _ => some (3 : Nat)) [] [] ⟨[], [], [], defaultCacheConfig, 0⟩
      = (Except.ok (some 3), ⟨[], [], [], defaultCacheConfig, 0⟩, 1) :=
  ⟨rfl,
   cached_bypass_unresolved 5 ⟨false⟩ (fun _ => 0) "kline_daily" none "stock_code" "f"
     ["other"] [] (fun _ _ => some (3 : Nat)) [] [] ⟨[], [], [], defaultCacheConfig, 0⟩ rfl⟩

/-- C6: the derived cache key is invariant under reordering of the
parameter pairs — parameters are serialized with keys sorted before
hashing — and the derivation is a plain function of category, identifier
and parameters. -/
theorem cacheKey_order_invariant (dataType identifier : String)
    (P Q : List (String × String)) (hp : P.Perm Q) (hnd : nodupKeys P) :
    getCacheKey dataType identifier P = getCacheKey dataType identifier Q := by
  unfold getCacheKey jsonDumpsSorted
  rw [sortPairs_eq_of_perm P Q hp hnd]
  have hlen : P.length = Q.length := hp.length_eq
  have hie : P.isEmpty = Q.isEmpty := by
    cases P <;> cases Q <;> simp_all
  rw [hie]

/-- Witness for C6: two concrete parameter dicts holding the same pairs in
different order derive the same cache key. -/
theorem cacheKey_order_invariant_witness :
    ([("start", "20240101"), ("end", "20241231")] : List (String × String)).Perm
        [("end", "20241231"), ("start", "20240101")] ∧
    nodupKeys ([("start", "20240101"), ("end", "20241231")] : List (String × String)) ∧
    getCacheKey "kline_daily" "600519" [("start", "20240101"), ("end", "20241231")]
      = getCacheKey "kline_daily" "600519" [("end", "20241231"), ("start", "20240101")] :=
  ⟨by decide, by decide,
   cacheKey_order_invariant "kline_daily" "600519" _ _ (by decide) (by decide)⟩

/-- The cache key shared by the concrete states below. -/
def kTest : String := getCacheKey "kline_daily" "600519" []

/-- A state whose disk index holds one valid (unexpired at time 50) row for
`kTest` while the blob file for `kTest` is missing from disk. -/
def stBlobMissing : DM Nat :=
  ⟨[], [(kTest, ⟨some 100, "kline_daily", "600519", []⟩)], [], defaultCacheConfig, 0⟩

/-- C1 counterexample: with a valid index row whose blob file is missing,
`get` reports a miss as claimed, but the disk index still contains the key
after the call — the stale row is not dropped, so the second half of the
claim fails on this input. -/
theorem get_missing_blob_cex :
    (DataManager.get 50 stBlobMissing "kline_daily" "600519" [] false).outcome
        = Except.ok none ∧
    lookupA (DataManager.get 50 stBlobMissing "kline_daily" "600519" [] false).state.disk_cache_index
        kTest = some ⟨some 100, "kline_daily", "600519", []⟩ :=
  ⟨by decide, by decide⟩

/-- C1 amended: with a valid (unexpired) index row for the key, no memory
entry, and a missing or unreadable blob, `get` reports a miss and leaves
the entire cache state unchanged; in particular the stale index row
remains until expiry or a sweep removes it (the read failure is caught at
lines 228-229 and only logged). -/
theorem get_missing_blob_state_unchanged {α : Type} (now : Nat) (st : DM α)
    (dataType identifier : String) (params : List (String × String))
    (info : DiskInfo) (exp : Nat)
    (hmem : lookupA st.memory_cache (getCacheKey dataType identifier params) = none)
    (hidx : lookupA st.disk_cache_index (getCacheKey dataType identifier params) = some info)
    (hexp : info.expire_time = some exp) (hnow : now < exp)
    (hblob : lookupA st.blobs (getCacheKey dataType identifier params) = none ∨
             lookupA st.blobs (getCacheKey dataType identifier params) = some Blob.corrupt) :
    (DataManager.get now st dataType identifier params false).outcome = Except.ok none ∧
    (DataManager.get now st dataType identifier params false).state = st := by
  rcases hblob with hb | hb <;>
    simp [DataManager.get, DataManager.getDisk, hmem, hidx, hexp, hnow, hb]

/-- Witness for the amended C1 at the concrete missing-blob state. -/
theorem get_missing_blob_state_unchanged_witness :
    lookupA stBlobMissing.memory_cache kTest = none ∧
    lookupA stBlobMissing.disk_cache_index kTest
      = some ⟨some 100, "kline_daily", "600519", []⟩ ∧
    (50 : Nat) < 100 ∧
    lookupA stBlobMissing.blobs kTest = none ∧
    ((DataManager.get 50 stBlobMissing "kline_daily" "600519" [] false).outcome
        = Except.ok none ∧
     (DataManager.get 50 stBlobMissing "kline_daily" "600519" [] false).state
        = stBlobMissing) :=
  ⟨by decide, by decide, by decide, by decide,
   get_missing_blob_state_unchanged 50 stBlobMissing "kline_daily" "600519" []
     ⟨some 100, "kline_daily", "600519", []⟩ 100
     (by decide) (by decide) rfl (by decide) (Or.inl (by decide))⟩

/-- A state whose disk index holds one expired (at time 200) row for
`kTest` together with its blob file. -/
def stExpiredDisk : DM Nat :=
  ⟨[], [(kTest, ⟨some 100, "kline_daily", "600519", []⟩)], [(kTest, Blob.ok 7)],
   defaultCacheConfig, 0⟩

/-- C4 counterexample: for an expired disk row, `get` reports a miss and
deletes the index row, but the blob file is still on disk after the call —
the expired branch at lines 230-233 never removes the `.pkl` file, so the
"deletes the blob" half of the claim fails on this input. -/
theorem get_expired_disk_cex :
    (DataManager.get 200 stExpiredDisk "kline_daily" "600519" [] false).outcome
        = Except.ok none ∧
    lookupA (DataManager.get 200 stExpiredDisk "kline_daily" "600519" [] false).state.disk_cache_index
        kTest = none ∧
    lookupA (DataManager.get 200 stExpiredDisk "kline_daily" "600519" [] false).state.blobs
        kTest = some (Blob.ok 7) :=
  ⟨by decide, by decide, by decide⟩

/-- C4 amended: for a key with no unexpired memory entry (no memory entry
at all, or only an expired one) whose disk index row has expired, `get`
reports a miss, deletes the index row and rewrites the index document, but
leaves the blob file on disk untouched. -/
theorem get_expired_disk_row {α : Type} (now : Nat) (st : DM α)
    (dataType identifier : String) (params : List (String × String))
    (info : DiskInfo) (exp : Nat)
    (hmem : ∀ e : CacheEntry α,
      lookupA st.memory_cache (getCacheKey dataType identifier params) = some e →
      CacheEntry.expired now e = true)
    (hidx : lookupA st.disk_cache_index (getCacheKey dataType identifier params) = some info)
    (hexp : info.expire_time = some exp) (hnow : exp < now) :
    (DataManager.get now st dataType identifier params false).outcome = Except.ok none ∧
    (DataManager.get now st dataType identifier params false).state.disk_cache_index
      = eraseA st.disk_cache_index (getCacheKey dataType identifier params) ∧
    (DataManager.get now st dataType identifier params false).state.blobs = st.blobs ∧
    (DataManager.get now st dataType identifier params false).state.index_saves
      = st.index_saves + 1 := by
  have hn : ¬ now < exp := by omega
  cases hm : lookupA st.memory_cache (getCacheKey dataType identifier params) with
  | none => simp [DataManager.get, DataManager.getDisk, hm, hidx, hexp, hn]
  | some e =>
    have he := hmem e hm
    simp [DataManager.get, DataManager.getDisk, hm, he, hidx, hexp, hn]

/-- A state holding an expired memory entry for `kTest` together with the
expired disk row and its blob — the typical shape after a persisted entry
expires: `set` wrote both tiers with the same expiry. -/
def stExpiredBoth : DM Nat :=
  ⟨[(kTest, ⟨7, 0, 100, "api", [], 0, 0⟩)],
   [(kTest, ⟨some 100, "kline_daily", "600519", []⟩)],
   [(kTest, Blob.ok 7)], defaultCacheConfig, 0⟩

/-- Witness for the amended C4 at a concrete state whose memory entry for
the key is present but expired, alongside the expired disk row. -/
theorem get_expired_disk_row_witness :
    (∀ e : CacheEntry Nat, lookupA stExpiredBoth.memory_cache kTest = some e →
       CacheEntry.expired 200 e = true) ∧
    lookupA stExpiredBoth.disk_cache_index kTest
      = some ⟨some 100, "kline_daily", "600519", []⟩ ∧
    (100 : Nat) < 200 ∧
    ((DataManager.get 200 stExpiredBoth "kline_daily" "600519" [] false).outcome
        = Except.ok none ∧
     (DataManager.get 200 stExpiredBoth "kline_daily" "600519" [] false).state.disk_cache_index
        = eraseA stExpiredBoth.disk_cache_index kTest ∧
     (DataManager.get 200 stExpiredBoth "kline_daily" "600519" [] false).state.blobs
        = stExpiredBoth.blobs ∧
     (DataManager.get 200 stExpiredBoth "kline_daily" "600519" [] false).state.index_saves
        = stExpiredBoth.index_saves + 1) :=
  ⟨by
     intro e he
     have h2 : lookupA stExpiredBoth.memory_cache kTest
         = some (⟨7, 0, 100, "api", [], 0, 0⟩ : CacheEntry Nat) := by decide
     cases h2.symm.trans he
     decide,
   by decide, by decide,
   get_expired_disk_row 200 stExpiredBoth "kline_daily" "600519" []
     ⟨some 100, "kline_daily", "600519", []⟩ 100
     (by
       intro e he
       have h2 : lookupA stExpiredBoth.memory_cache kTest
           = some (⟨7, 0, 100, "api", [], 0, 0⟩ : CacheEntry Nat) := by decide
       cases h2.symm.trans he
       decide)
     (by decide) rfl (by decide)⟩

theorem getDisk_no_raise {α : Type} (now : Nat) (st : DM α) (cacheKey : String)
    (hwf : ∀ info, lookupA st.disk_cache_index cacheKey = some info →
           info.expire_time.isSome = true) :
    ∃ r, (DataManager.getDisk now st cacheKey).outcome = Except.ok r := by
  unfold DataManager.getDisk
  cases h : lookupA st.disk_cache_index cacheKey with
  | none => exact ⟨none, rfl⟩
  | some info =>
    dsimp only
    cases he : info.expire_time with
    | none =>
      have := hwf info h
      rw [he] at this
      cases this
    | some exp =>
      dsimp only
      by_cases hn : now < exp
      · rw [if_pos hn]
        cases hb : lookupA st.blobs cacheKey with
        | none => exact ⟨none, rfl⟩
        | some b =>
          cases b with
          | ok data => exact ⟨some data, rfl⟩
          | corrupt => exact ⟨none, rfl⟩
      · rw [if_neg hn]
        exact ⟨none, rfl⟩

/-- A state whose disk index row for `kTest` is malformed: its
`expire_time` field does not parse, so `datetime.fromisoformat` raises. -/
def stMalformed : DM Nat :=
  ⟨[], [(kTest, ⟨none, "kline_daily", "600519", []⟩)], [], defaultCacheConfig, 0⟩

/-- C3 counterexample: a malformed disk index row makes `get` raise to its
caller (`datetime.fromisoformat` at line 208 runs outside any `try`),
contradicting the claim that no cache-internal failure — index corruption
included — is ever surfaced. -/
theorem get_malformed_index_raises_cex :
    (DataManager.get 50 stMalformed "kline_daily" "600519" [] false).outcome
      = Except.error "fromisoformat" :=
  by decide

/-- C3 amended: `set` never raises (its whole body is inside `try`, so a
failure returns `False` — in the embedding `set` is total and returns
`Bool`), and blob-level failures inside `get` (missing or unreadable blob)
degrade to a reported miss; but `get` raises to its caller when the disk
index row for the derived key is malformed.  Provided every index row for
the key is well-formed, `get` never raises. -/
theorem get_no_raise_of_wellformed {α : Type} (now : Nat) (st : DM α)
    (dataType identifier : String) (params : List (String × String)) (forceRefresh : Bool)
    (hwf : ∀ info, lookupA st.disk_cache_index (getCacheKey dataType identifier params)
             = some info → info.expire_time.isSome = true) :
    ∃ r, (DataManager.get now st dataType identifier params forceRefresh).outcome
           = Except.ok r := by
  unfold DataManager.get
  dsimp only
  by_cases hf : forceRefresh
  · rw [if_pos hf]
    exact ⟨none, rfl⟩
  · rw [if_neg hf]
    cases hm : lookupA st.memory_cache (getCacheKey dataType identifier params) with
    | none => exact getDisk_no_raise now st _ hwf
    | some entry =>
      dsimp only
      by_cases he : entry.expired now
      · rw [if_pos he]
        exact getDisk_no_raise now _ _ hwf
      · rw [if_neg he]
        exact ⟨some entry.data, rfl⟩

/-- Witness for the amended C3 at a concrete well-formed state. -/
theorem get_no_raise_of_wellformed_witness :
    (∀ info, lookupA stExpiredDisk.disk_cache_index kTest = some info →
       info.expire_time.isSome = true) ∧
    (∃ r, (DataManager.get 50 stExpiredDisk "kline_daily" "600519" [] false).outcome
            = Except.ok r) :=
  ⟨by decide,
   get_no_raise_of_wellformed 50 stExpiredDisk "kline_daily" "600519" [] false (by decide)⟩

/-- C7: for a key present only in the disk tier with an unexpired row and a
readable blob, `get` returns the stored payload and places a promoted copy
(same payload and expiry, provenance `disk`) into the memory tier, so that
a subsequent `get` at any time up to the expiry is served by the memory
tier without reaching the disk index or the blob file. -/
theorem get_disk_promotion {α : Type} (now now2 : Nat) (st : DM α)
    (dataType identifier : String) (params : List (String × String))
    (info : DiskInfo) (exp : Nat) (v : α)
    (hmem : lookupA st.memory_cache (getCacheKey dataType identifier params) = none)
    (hidx : lookupA st.disk_cache_index (getCacheKey dataType identifier params) = some info)
    (hexp : info.expire_time = some exp) (hnow : now < exp)
    (hblob : lookupA st.blobs (getCacheKey dataType identifier params) = some (Blob.ok v))
    (hnow2 : now2 ≤ exp) :
    (DataManager.get now st dataType identifier params false).outcome = Except.ok (some v) ∧
    lookupA (DataManager.get now st dataType identifier params false).state.memory_cache
        (getCacheKey dataType identifier params)
      = some ⟨v, now, exp, "disk", info.metadata, 0, now⟩ ∧
    (DataManager.get now2 (DataManager.get now st dataType identifier params false).state
        dataType identifier params false).outcome = Except.ok (some v) ∧
    (DataManager.get now2 (DataManager.get now st dataType identifier params false).state
        dataType identifier params false).diskIndexRead = false ∧
    (DataManager.get now2 (DataManager.get now st dataType identifier params false).state
        dataType identifier params false).blobRead = false := by
  have hred : DataManager.get now st dataType identifier params false
      = GetResult.mk (Except.ok (some v))
          (DM.mk
            (insertA st.memory_cache (getCacheKey dataType identifier params)
              (CacheEntry.mk v now exp "disk" info.metadata 0 now))
            st.disk_cache_index st.blobs st.config st.index_saves)
          true true := by
    simp [DataManager.get, DataManager.getDisk, hmem, hidx, hexp, hnow, hblob]
  have hx2 : ¬ now2 > exp := by omega
  rw [hred]
  refine ⟨rfl, ?_, ?_, ?_, ?_⟩ <;>
    simp [DataManager.get, lookupA_insertA_self, CacheEntry.expired, hx2]

/-- Witness for C7 at a concrete disk-only state. -/
theorem get_disk_promotion_witness :
    lookupA stExpiredDisk.memory_cache kTest = none ∧
    lookupA stExpiredDisk.disk_cache_index kTest
      = some ⟨some 100, "kline_daily", "600519", []⟩ ∧
    (50 : Nat) < 100 ∧ (60 : Nat) ≤ 100 ∧
    lookupA stExpiredDisk.blobs kTest = some (Blob.ok 7) ∧
    ((DataManager.get 50 stExpiredDisk "kline_daily" "600519" [] false).outcome
        = Except.ok (some 7) ∧
     lookupA (DataManager.get 50 stExpiredDisk "kline_daily" "600519" [] false).state.memory_cache
        kTest = some ⟨7, 50, 100, "disk", [], 0, 50⟩ ∧
     (DataManager.get 60 (DataManager.get 50 stExpiredDisk "kline_daily" "600519" [] false).state
        "kline_daily" "600519" [] false).outcome = Except.ok (some 7) ∧
     (DataManager.get 60 (DataManager.get 50 stExpiredDisk "kline_daily" "600519" [] false).state
        "kline_daily" "600519" [] false).diskIndexRead = false ∧
     (DataManager.get 60 (DataManager.get 50 stExpiredDisk "kline_daily" "600519" [] false).state
        "kline_daily" "600519" [] false).blobRead = false) :=
  ⟨by decide, by decide, by decide, by decide, by decide,
   get_disk_promotion 50 60 stExpiredDisk "kline_daily" "600519" []
     ⟨some 100, "kline_daily", "600519", []⟩ 100 7
     (by decide) (by decide) rfl (by decide) (by decide) (by decide)⟩

/-- The empty manager state over `Nat` payloads with the default TTL table. -/
def stEmptyNat : DM Nat := ⟨[], [], [], defaultCacheConfig, 0⟩

/-- C5 counterexample: `set` at time 0 for `realtime_quote` (TTL 60) makes
`expire_at = 60`, and a `get` at exactly `now = 60` is a memory-tier HIT
(`is_expired` uses strict `>`), even though `now < expire_at` fails — so
the conjunct "a hit is only possible when now < expire_at" is false. -/
theorem ttl_boundary_hit_cex :
    (DataManager.get 60
        ((DataManager.set 0 ⟨false⟩ (fun _ => 0) stEmptyNat
            "realtime_quote" "600519" 5 [] []).2)
        "realtime_quote" "600519" [] false).outcome = Except.ok (some 5) ∧
    ¬ (60 : Nat) < 60 :=
  ⟨by decide, by decide⟩

/-- C5 amended: after `set(C, I, v)` with the TTL-table duration `t`
(`expire_at = now0 + t`), a `get` strictly before `expire_at` returns
exactly `v`, and a `get` strictly after `expire_at` reports a miss and
immediately evicts the entry from the memory tier and from the disk index;
however a hit is possible whenever `now ≤ expire_at` in the memory tier
(inclusive at the boundary; the disk tier alone requires `now < expire_at`). -/
theorem set_then_get_ttl {α : Type} (now0 now1 now2 : Nat) (env : DiskEnv) (strLen : α → Nat)
    (st : DM α) (dataType identifier : String) (params metadata : List (String × String))
    (v : α)
    (hnd : nodupKeys st.memory_cache)
    (hdisk : lookupA st.disk_cache_index (getCacheKey dataType identifier params) = none)
    (h1 : now1 < now0 + getCacheTtl st.config dataType)
    (h2 : now2 > now0 + getCacheTtl st.config dataType) :
    (DataManager.get now1
        (DataManager.set now0 env strLen st dataType identifier v params metadata).2
        dataType identifier params false).outcome = Except.ok (some v) ∧
    (DataManager.get now2
        (DataManager.set now0 env strLen st dataType identifier v params metadata).2
        dataType identifier params false).outcome = Except.ok none ∧
    lookupA (DataManager.get now2
        (DataManager.set now0 env strLen st dataType identifier v params metadata).2
        dataType identifier params false).state.memory_cache
      (getCacheKey dataType identifier params) = none ∧
    lookupA (DataManager.get now2
        (DataManager.set now0 env strLen st dataType identifier v params metadata).2
        dataType identifier params false).state.disk_cache_index
      (getCacheKey dataType identifier params) = none := by
  have hmem1 : (DataManager.set now0 env strLen st dataType identifier v params metadata).2.memory_cache
      = insertA st.memory_cache (getCacheKey dataType identifier params)
          (CacheEntry.mk v now0 (now0 + getCacheTtl st.config dataType) "api" metadata 0 now0) := by
    unfold DataManager.set
    dsimp only
    split
    · split <;> rfl
    · rfl
  have hdisk1 : lookupA (DataManager.set now0 env strLen st dataType identifier v params metadata).2.disk_cache_index
        (getCacheKey dataType identifier params) = none ∨
      (DataManager.set now0 env strLen st dataType identifier v params metadata).2.disk_cache_index
        = insertA st.disk_cache_index (getCacheKey dataType identifier params)
            (DiskInfo.mk (some (now0 + getCacheTtl st.config dataType)) dataType identifier metadata) := by
    unfold DataManager.set
    dsimp only
    split
    · split
      · exact Or.inl hdisk
      · exact Or.inr rfl
    · exact Or.inl hdisk
  have hx1 : ¬ now1 > now0 + getCacheTtl st.config dataType := by omega
  have hx2 : now2 > now0 + getCacheTtl st.config dataType := h2
  have hx3 : ¬ now2 < now0 + getCacheTtl st.config dataType := by omega
  have herase : eraseA st.disk_cache_index (getCacheKey dataType identifier params)
      = st.disk_cache_index := eraseA_of_lookupA_none _ _ hdisk
  have hndmem : lookupA (eraseA (insertA st.memory_cache (getCacheKey dataType identifier params)
        (CacheEntry.mk v now0 (now0 + getCacheTtl st.config dataType) "api" metadata 0 now0))
        (getCacheKey dataType identifier params)) (getCacheKey dataType identifier params) = none := by
    rw [eraseA_insertA]
    exact lookupA_eraseA_self _ _ hnd
  refine ⟨?_, ?_, ?_, ?_⟩
  · simp [DataManager.get, hmem1, lookupA_insertA_self, CacheEntry.expired, hx1]
  · rcases hdisk1 with hd | hd <;>
      simp [DataManager.get, DataManager.getDisk, hmem1, lookupA_insertA_self,
            CacheEntry.expired, hx2, hx3, hd, eraseA_insertA]
  · rcases hdisk1 with hd | hd <;>
      simp [DataManager.get, DataManager.getDisk, hmem1, lookupA_insertA_self,
            CacheEntry.expired, hx2, hx3, hd, eraseA_insertA,
            lookupA_eraseA_self st.memory_cache (getCacheKey dataType identifier params) hnd]
  · rcases hdisk1 with hd | hd <;>
      simp [DataManager.get, DataManager.getDisk, hmem1, lookupA_insertA_self,
            CacheEntry.expired, hx2, hx3, hd, eraseA_insertA, herase, hdisk]

/-- Witness for the amended C5: `set` at 0 for `realtime_quote` (TTL 60),
`get` at 59 hits with the stored value, `get` at 61 misses and evicts. -/
theorem set_then_get_ttl_witness :
    nodupKeys stEmptyNat.memory_cache ∧
    lookupA stEmptyNat.disk_cache_index (getCacheKey "realtime_quote" "600519" []) = none ∧
    (59 : Nat) < 0 + getCacheTtl stEmptyNat.config "realtime_quote" ∧
    (61 : Nat) > 0 + getCacheTtl stEmptyNat.config "realtime_quote" ∧
    ((DataManager.get 59
        (DataManager.set 0 ⟨false⟩ (fun _ => 0) stEmptyNat "realtime_quote" "600519" 5 [] []).2
        "realtime_quote" "600519" [] false).outcome = Except.ok (some 5) ∧
     (DataManager.get 61
        (DataManager.set 0 ⟨false⟩ (fun _ => 0) stEmptyNat "realtime_quote" "600519" 5 [] []).2
        "realtime_quote" "600519" [] false).outcome = Except.ok none ∧
     lookupA (DataManager.get 61
        (DataManager.set 0 ⟨false⟩ (fun _ => 0) stEmptyNat "realtime_quote" "600519" 5 [] []).2
        "realtime_quote" "600519" [] false).state.memory_cache
       (getCacheKey "realtime_quote" "600519" []) = none ∧
     lookupA (DataManager.get 61
        (DataManager.set 0 ⟨false⟩ (fun _ => 0) stEmptyNat "realtime_quote" "600519" 5 [] []).2
        "realtime_quote" "600519" [] false).state.disk_cache_index
       (getCacheKey "realtime_quote" "600519" []) = none) :=
  ⟨by decide, by decide, by decide, by decide,
   set_then_get_ttl 0 59 61 ⟨false⟩ (fun _ => 0) stEmptyNat "realtime_quote" "600519" [] [] 5
     (by decide) (by decide) (by decide) (by decide)⟩

theorem expiredDiskKeys_ok {l : List (String × DiskInfo)} (now : Nat)
    (hwf : ∀ p ∈ l, (p.2 : DiskInfo).expire_time.isSome = true) :
    ∃ ks, expiredDiskKeys now l = Except.ok ks := by
  induction l with
  | nil => exact ⟨[], rfl⟩
  | cons p rest ih =>
    obtain ⟨t, ht⟩ := Option.isSome_iff_exists.mp (hwf p (List.mem_cons_self p rest))
    obtain ⟨ks, hks⟩ := ih (fun q hq => hwf q (List.mem_cons_of_mem p hq))
    exact ⟨if decide (now > t) = true then p.1 :: ks else ks,
      by simp only [expiredDiskKeys, diskExpired, ht, hks]⟩

theorem expiredDiskKeys_mem {now : Nat} : ∀ {l : List (String × DiskInfo)} {ks : List String},
    expiredDiskKeys now l = Except.ok ks →
    ∀ p ∈ l, ∀ t, (p.2 : DiskInfo).expire_time = some t → now > t →
    ks.contains p.1 = true := by
  intro l
  induction l with
  | nil =>
    intro ks _ p hp
    cases hp
  | cons q rest ih =>
    intro ks h p hp t ht hgt
    simp only [expiredDiskKeys] at h
    cases hd : diskExpired now q.2 with
    | error e => rw [hd] at h; cases h
    | ok b =>
      rw [hd] at h
      cases hr : expiredDiskKeys now rest with
      | error e => rw [hr] at h; cases h
      | ok ks2 =>
        rw [hr] at h
        dsimp only at h
        injection h with h
        rcases List.mem_cons.mp hp with heq | hmem
        · subst heq
          have hb : b = true := by
            rw [diskExpired, ht] at hd
            injection hd with hd
            rw [← hd]
            simpa using hgt
          rw [hb] at h
          rw [← h]
          simp
        · have hks2 := ih hr p hmem t ht hgt
          rw [← h]
          cases b with
          | true => simpa using Or.inr (by simpa using hks2)
          | false => simpa using hks2

/-- C8: one sweep pass over a well-formed disk index leaves no expired
entry in the memory tier or the disk index, deletes the blob file and the
index row of every expired disk row, rewrites the index document when at
least one disk row was removed, and reports the number of removed entries. -/
theorem sweep_removes_expired {α : Type} (now : Nat) (st : DM α)
    (hwf : ∀ p ∈ st.disk_cache_index, (p.2 : DiskInfo).expire_time.isSome = true) :
    ∃ st2 n, cleanupExpiredCache now st = Except.ok (st2, n) ∧
      (∀ p ∈ st2.memory_cache, (p.2 : CacheEntry α).expired now = false) ∧
      (∀ p ∈ st2.disk_cache_index, ∃ t, (p.2 : DiskInfo).expire_time = some t ∧ ¬ now > t) ∧
      (∀ p ∈ st.disk_cache_index, ∀ t, (p.2 : DiskInfo).expire_time = some t → now > t →
         lookupA st2.blobs p.1 = none ∧ lookupA st2.disk_cache_index p.1 = none) ∧
      ((∃ p ∈ st.disk_cache_index, ∃ t, (p.2 : DiskInfo).expire_time = some t ∧ now > t) →
         st2.index_saves = st.index_saves + 1) := by
  obtain ⟨ks, hks⟩ := expiredDiskKeys_ok now hwf
  have hclean : cleanupExpiredCache now st = Except.ok
      (DM.mk (st.memory_cache.filter (fun p => !(p.2.expired now)))
        (st.disk_cache_index.filter (fun p => !(ks.contains p.1)))
        (st.blobs.filter (fun p => !(ks.contains p.1)))
        st.config
        (if ks.isEmpty then st.index_saves else st.index_saves + 1),
       ((st.memory_cache.filter (fun p => p.2.expired now)).map Prod.fst).length + ks.length) := by
    unfold cleanupExpiredCache
    dsimp only
    rw [hks]
  refine ⟨_, _, hclean, ?_, ?_, ?_, ?_⟩
  · intro p hp
    have hpred := (List.mem_filter.mp hp).2
    simpa using hpred
  · intro p hp
    obtain ⟨hpmem, hpred⟩ := List.mem_filter.mp hp
    obtain ⟨t, ht⟩ := Option.isSome_iff_exists.mp (hwf p hpmem)
    refine ⟨t, ht, fun hgt => ?_⟩
    have hc := expiredDiskKeys_mem hks p hpmem t ht hgt
    rw [hc] at hpred
    simp at hpred
  · intro p hp t ht hgt
    have hc := expiredDiskKeys_mem hks p hp t ht hgt
    exact ⟨lookupA_filter_not_contains _ _ _ hc, lookupA_filter_not_contains _ _ _ hc⟩
  · rintro ⟨p, hp, t, ht, hgt⟩
    have hc := expiredDiskKeys_mem hks p hp t ht hgt
    have hne : ks.isEmpty = false := by
      cases ks
      · cases hc
      · rfl
    simp [hne]

/-- A state holding one expired memory entry and one expired disk row (with
its blob) for `kTest`, all expired at time 200. -/
def stSweep : DM Nat :=
  ⟨[(kTest, ⟨5, 0, 100, "api", [], 0, 0⟩)],
   [(kTest, ⟨some 100, "kline_daily", "600519", []⟩)],
   [(kTest, Blob.ok 5)], defaultCacheConfig, 0⟩

/-- Witness for C8 at the concrete all-expired state. -/
theorem sweep_removes_expired_witness :
    (∀ p ∈ stSweep.disk_cache_index, (p.2 : DiskInfo).expire_time.isSome = true) ∧
    (∃ st2 n, cleanupExpiredCache 200 stSweep = Except.ok (st2, n) ∧
      (∀ p ∈ st2.memory_cache, (p.2 : CacheEntry Nat).expired 200 = false) ∧
      (∀ p ∈ st2.disk_cache_index, ∃ t, (p.2 : DiskInfo).expire_time = some t ∧ ¬ 200 > t) ∧
      (∀ p ∈ stSweep.disk_cache_index, ∀ t, (p.2 : DiskInfo).expire_time = some t → 200 > t →
         lookupA st2.blobs p.1 = none ∧ lookupA st2.disk_cache_index p.1 = none) ∧
      ((∃ p ∈ stSweep.disk_cache_index, ∃ t, (p.2 : DiskInfo).expire_time = some t ∧ 200 > t) →
         st2.index_saves = stSweep.index_saves + 1)) :=
  ⟨by decide, sweep_removes_expired 200 stSweep (by decide)⟩

/-- C2 counterexample: a per-wrap TTL override (7s) for a category that has
no row in the TTL table.  The call reaches the store step (the fetch runs
once and its non-`None` result is stored), yet after the call the table
permanently contains the override row `(7, seconds)` where before the call
it had no row for the category — the restore at lines 506-507 is guarded by
`original_ttl is not None` and never runs. -/
theorem cached_ttl_override_cex :
    lookupA stEmptyNat.config "custom_type" = none ∧
    (cachedCall 0 ⟨false⟩ (fun _ => 0) "custom_type" (some 7) "stock_code" "fetch_x"
        ["stock_code"] [] (fun _ _ => some (5 : Nat)) ["600519"] [] stEmptyNat).1
      = Except.ok (some 5) ∧
    (cachedCall 0 ⟨false⟩ (fun _ => 0) "custom_type" (some 7) "stock_code" "fetch_x"
        ["stock_code"] [] (fun _ _ => some (5 : Nat)) ["600519"] [] stEmptyNat).2.2 = 1 ∧
    lookupA (cachedCall 0 ⟨false⟩ (fun _ => 0) "custom_type" (some 7) "stock_code" "fetch_x"
        ["stock_code"] [] (fun _ _ => some (5 : Nat)) ["600519"] [] stEmptyNat).2.1.config
      "custom_type" = some ⟨7, "seconds"⟩ :=
  ⟨by decide, by decide, by decide, by decide⟩

/-- C2 amended: for a wrapped fetch with a per-wrap TTL override whose
category already has a row in the TTL table (necessarily with unit
`seconds`, as every default row has), any call that reaches the store step
leaves the table row equal to its value before the call; the restore is
unconditional on the outcome of the store, so it happens even when the
overriding `set` fails.  For a category with no table row, the override
becomes a permanent row instead (see the counterexample). -/
theorem cached_ttl_override_restored {α : Type} (now : Nat) (env : DiskEnv) (strLen : α → Nat)
    (dataType : String) (t : Nat) (identifierParam funcName : String)
    (sigParams : List String) (defaults : List (String × String))
    (fn : List String → List (String × String) → Option α)
    (args : List String) (kwargs : List (String × String)) (st : DM α)
    (c : TTLConfig) (v : α)
    (hcfg : lookupA st.config dataType = some c)
    (hunit : c.unit = "seconds")
    (hid : falsy (resolveIdentifier sigParams identifierParam args kwargs) = false)
    (hmiss : (DataManager.get now st dataType
        ((resolveIdentifier sigParams identifierParam args kwargs).getD "")
        (wrapperOtherParams sigParams defaults args kwargs identifierParam funcName)
        false).outcome = Except.ok none)
    (hres : fn args kwargs = some v) :
    lookupA (cachedCall now env strLen dataType (some t) identifierParam funcName sigParams
        defaults fn args kwargs st).2.1.config dataType = some c := by
  unfold cachedCall
  simp [hid, hmiss, hres, get_config, set_config, hcfg, lookupA_insertA_self, hunit]
  rw [← hunit]

/-- Witness for the amended C2 at a concrete call for `kline_daily`
(table row `(300, seconds)`), override 7 seconds. -/
theorem cached_ttl_override_restored_witness :
    lookupA stEmptyNat.config "kline_daily" = some ⟨300, "seconds"⟩ ∧
    (TTLConfig.mk 300 "seconds").unit = "seconds" ∧
    falsy (resolveIdentifier ["stock_code"] "stock_code" ["600519"] []) = false ∧
    (DataManager.get 0 stEmptyNat "kline_daily"
        ((resolveIdentifier ["stock_code"] "stock_code" ["600519"] []).getD "")
        (wrapperOtherParams ["stock_code"] [] ["600519"] [] "stock_code" "fetch_x")
        false).outcome = Except.ok none ∧
    lookupA (cachedCall 0 ⟨false⟩ (fun _ => 0) "kline_daily" (some 7) "stock_code" "fetch_x"
        ["stock_code"] [] (fun _ _ => some (5 : Nat)) ["600519"] [] stEmptyNat).2.1.config
      "kline_daily" = some ⟨300, "seconds"⟩ :=
  ⟨by decide, rfl, by decide, by decide,
   cached_ttl_override_restored 0 ⟨false⟩ (fun _ => 0) "kline_daily" 7 "stock_code" "fetch_x"
     ["stock_code"] [] (fun _ _ => some (5 : Nat)) ["600519"] [] stEmptyNat
     ⟨300, "seconds"⟩ 5 (by decide) rfl (by decide) (by decide) rfl⟩
